import Mathlib

/-!
Verification of the CI/CD failure-resolution agent (`ci_failure_resolver.py`,
`run_resolver.py`).  The Python code is shallowly embedded: text is modelled
as `List Char`, Python's substring operator `in` as `containsStr`, the
pattern dictionary as an association list, the filesystem and the per-cycle
side effects as an explicit state record.
-/

set_option maxRecDepth 10000

/-- Text, modelled as a list of characters (Python `str`). -/
abbrev Str := List Char

/-- Turn a Lean string literal into the `Str` model. -/
def chars (s : String) : Str := s.data

/-- `needle` is a prefix of `hay` (helper for substring containment). -/
def isPrefixAt : Str → Str → Bool
  | [], _ => true
  | _ :: _, [] => false
  | a :: as, b :: bs => a = b && isPrefixAt as bs

/-- Python's `needle in hay` substring test. -/
def containsStr : Str → Str → Bool
  | [], needle => needle.isEmpty
  | h :: t, needle => isPrefixAt needle (h :: t) || containsStr t needle

/-- Python's `str.lower()` (ASCII). -/
def lowerStr (s : Str) : Str := s.map Char.toLower

/-- Decimal rendering of a natural number, for f-string interpolation of run ids. -/
def natStr (n : Nat) : Str := (Nat.repr n).data

/-- Single-quote character, used in log phrases such as `Language 'python' not found`. -/
def sqc : Char := Char.ofNat 39

/-- The phrase `Language 'javascript' not found` from `_analyze_codeql_failure`. -/
def langJsPhrase : Str :=
  chars "Language " ++ [sqc] ++ chars "javascript" ++ [sqc] ++ chars " not found"

/-- The phrase `Language 'python' not found` from `_analyze_codeql_failure`. -/
def langPyPhrase : Str :=
  chars "Language " ++ [sqc] ++ chars "python" ++ [sqc] ++ chars " not found"

/-- `GitHubActionsResolver._analyze_readme_failure`. -/
def _analyze_readme_failure (logs : Str) : Str :=
  if containsStr logs (chars "jamesgeorge007/github-activity-readme") then
    if containsStr logs (chars "Error: Request failed") then
      chars "API request failure - possibly rate limited or token issue"
    else if containsStr logs (chars "Error: Cannot read") then
      chars "README file access issue - check file permissions"
    else if containsStr logs (chars "Error: No recent activity") then
      chars "No recent activity found - this might be expected"
    else chars "Unknown README workflow failure"
  else chars "Unknown README workflow failure"

/-- `GitHubActionsResolver._analyze_codeql_failure`. -/
def _analyze_codeql_failure (logs : Str) : Str :=
  if containsStr logs (chars "No source code was seen during the build") then
    chars "No source code found for specified languages"
  else if containsStr logs langJsPhrase || containsStr logs langPyPhrase then
    chars "Specified languages not present in repository"
  else if containsStr logs (chars "Autobuild failed") then
    chars "Autobuild process failed - may need manual build steps"
  else chars "Unknown CodeQL failure"

/-- `GitHubActionsResolver._analyze_metrics_failure`. -/
def _analyze_metrics_failure (logs : Str) : Str :=
  if containsStr logs (chars "lowlighter/metrics") then
    if containsStr logs (chars "Error: Request failed") then
      chars "Metrics API request failed"
    else if containsStr logs (chars "Error: Invalid token") then
      chars "Invalid or insufficient token permissions"
    else if containsStr logs (chars "Error: Rate limit") then
      chars "Rate limit exceeded"
    else chars "Unknown metrics failure"
  else chars "Unknown metrics failure"

/-- C5: every log containing "No source code was seen during the build" is diagnosed
with a string containing "No source code found"; every log containing
"Language 'python' not found" (and not the no-source phrase) is diagnosed with a
string containing "not present in repository". -/
theorem spec_c5 :
    (∀ logs : Str,
      containsStr logs (chars "No source code was seen during the build") = true →
      containsStr (_analyze_codeql_failure logs) (chars "No source code found") = true) ∧
    (∀ logs : Str,
      containsStr logs (chars "No source code was seen during the build") = false →
      containsStr logs langPyPhrase = true →
      containsStr (_analyze_codeql_failure logs) (chars "not present in repository") = true) := by
  constructor
  · intro logs h
    simp only [_analyze_codeql_failure, h, if_true]
    decide
  · intro logs h1 h2
    simp only [_analyze_codeql_failure, h1, h2, Bool.or_true, if_true, Bool.false_eq_true,
      if_false]
    decide

/-- C5 witness: concrete evaluations discharging the hypotheses of `spec_c5`. -/
theorem spec_c5_witness :
    (containsStr (chars "No source code was seen during the build")
        (chars "No source code was seen during the build") = true ∧
      containsStr (_analyze_codeql_failure (chars "No source code was seen during the build"))
        (chars "No source code found") = true) ∧
    (containsStr langPyPhrase (chars "No source code was seen during the build") = false ∧
      containsStr langPyPhrase langPyPhrase = true ∧
      containsStr (_analyze_codeql_failure langPyPhrase)
        (chars "not present in repository") = true) :=
  ⟨⟨by decide, spec_c5.1 _ (by decide)⟩,
   ⟨by decide, by decide, spec_c5.2 langPyPhrase (by decide) (by decide)⟩⟩

/-- C1: evaluation at the failing input.  The repository's own unit test
(`test_analyze_readme_failure`) feeds `"Error: Request failed with status 403"` to
`_analyze_readme_failure` and expects a diagnosis containing "API request failure",
but the function first requires the vendor string
"jamesgeorge007/github-activity-readme" to occur in the log, so it returns the
generic unknown diagnosis instead. -/
theorem spec_c1_eval :
    _analyze_readme_failure (chars "Error: Request failed with status 403") =
      chars "Unknown README workflow failure" ∧
    containsStr (_analyze_readme_failure (chars "Error: Request failed with status 403"))
      (chars "API request failure") = false := by
  decide

/-- The failure-pattern dictionary: ordered association list from bucket name to
the ordered list of diagnosis strings (Python `Dict[str, List[str]]`). -/
abbrev Patterns := List (Str × List Str)

/-- Dictionary lookup `patterns[key]` (all call sites use keys that are present). -/
def pfind : Patterns → Str → List Str
  | [], _ => []
  | e :: ps, k => if e.1 = k then e.2 else pfind ps k

/-- `patterns[key].append(v)`: append `v` to the bucket stored under `key`. -/
def pappend : Patterns → Str → Str → Patterns
  | [], _, _ => []
  | e :: ps, k, v => if e.1 = k then (e.1, e.2 ++ [v]) :: pappend ps k v
                     else e :: pappend ps k v

/-- The dictionary initialised at the top of `analyze_failure_patterns`. -/
def initPatterns : Patterns :=
  [(chars "profile_readme_failures", []),
   (chars "codeql_failures", []),
   (chars "metrics_failures", []),
   (chars "permission_errors", []),
   (chars "action_version_issues", []),
   (chars "token_issues", [])]

/-- A workflow run as returned by the forge API: id and display name. -/
structure Run where
  id : Nat
  name : Str

/-- A job of a run: id and conclusion status. -/
structure Job where
  id : Nat
  conclusion : Str

/-- The per-category dispatch in the job loop of `analyze_failure_patterns`:
the run's lowercased display name selects at most one category classifier. -/
def categoryStep (workflow_name : Str) (logs : Str) (patterns : Patterns) : Patterns :=
  let wn := lowerStr workflow_name
  if containsStr wn (chars "readme") && containsStr wn (chars "activity") then
    pappend patterns (chars "profile_readme_failures") (_analyze_readme_failure logs)
  else if containsStr wn (chars "codeql") then
    pappend patterns (chars "codeql_failures") (_analyze_codeql_failure logs)
  else if containsStr wn (chars "metrics") || containsStr wn (chars "stats") then
    pappend patterns (chars "metrics_failures") (_analyze_metrics_failure logs)
  else patterns

/-- Cross-cutting permission detector of `analyze_failure_patterns`
(`ll` is the lowercased log text). -/
def permStep (runId : Nat) (ll : Str) (patterns : Patterns) : Patterns :=
  if containsStr ll (chars "permission") || containsStr ll (chars "forbidden") then
    pappend patterns (chars "permission_errors")
      (chars "Run " ++ natStr runId ++ chars ": Permission denied")
  else patterns

/-- Cross-cutting action-version detector of `analyze_failure_patterns`. -/
def actionStep (runId : Nat) (ll : Str) (patterns : Patterns) : Patterns :=
  if containsStr ll (chars "action") &&
      (containsStr ll (chars "deprecated") || containsStr ll (chars "not found")) then
    pappend patterns (chars "action_version_issues")
      (chars "Run " ++ natStr runId ++ chars ": Action version issue")
  else patterns

/-- Cross-cutting token detector of `analyze_failure_patterns`. -/
def tokenStep (runId : Nat) (ll : Str) (patterns : Patterns) : Patterns :=
  if containsStr ll (chars "token") &&
      (containsStr ll (chars "invalid") || containsStr ll (chars "expired")) then
    pappend patterns (chars "token_issues")
      (chars "Run " ++ natStr runId ++ chars ": Token issue")
  else patterns

/-- The body of the failed-job loop in `analyze_failure_patterns`: category
dispatch followed by the three cross-cutting detectors on the lowercased log. -/
def processJob (workflow_name : Str) (runId : Nat) (logs : Str) (patterns : Patterns) :
    Patterns :=
  tokenStep runId (lowerStr logs)
    (actionStep runId (lowerStr logs)
      (permStep runId (lowerStr logs)
        (categoryStep workflow_name logs patterns)))

/-- `GitHubActionsResolver.analyze_failure_patterns`: fold the job-loop body over
every failed run's jobs (`jobsOf` and `logsOf` model the forge responses used by
`get_run_jobs` and `get_job_logs`). -/
def analyze_failure_patterns (jobsOf : Nat → List Job) (logsOf : Nat → Str)
    (failed_runs : List Run) : Patterns :=
  failed_runs.foldl (fun patterns run =>
    (jobsOf run.id).foldl (fun patterns job =>
      if job.conclusion = chars "failure" then
        processJob run.name run.id (logsOf job.id) patterns
      else patterns) patterns) initPatterns

/-- The four bound remediation routines a fix descriptor can carry. -/
inductive FixAction where
  | fix_profile_readme_workflow
  | fix_codeql_workflow
  | fix_metrics_workflow
  | fix_permissions
deriving DecidableEq

/-- A fix descriptor produced by `generate_fixes`: category tag, optional target
file, description, bound routine. -/
structure FixDesc where
  type : Str
  file : Option Str
  description : Str
  action : FixAction
deriving DecidableEq

/-- `GitHubActionsResolver.generate_fixes`: one descriptor per non-empty bucket
among the four consulted buckets, in fixed order. -/
def generate_fixes (patterns : Patterns) : List FixDesc :=
  (if (pfind patterns (chars "profile_readme_failures")).isEmpty then [] else
    [{ type := chars "workflow_update",
       file := some (chars ".github/workflows/profile-readme.yml"),
       description := chars "Update profile README workflow",
       action := .fix_profile_readme_workflow }])
  ++ (if (pfind patterns (chars "codeql_failures")).isEmpty then [] else
    [{ type := chars "workflow_update",
       file := some (chars ".github/workflows/codeql-analysis.yml"),
       description := chars "Fix CodeQL language configuration",
       action := .fix_codeql_workflow }])
  ++ (if (pfind patterns (chars "metrics_failures")).isEmpty then [] else
    [{ type := chars "workflow_update",
       file := some (chars ".github/workflows/metrics.yml"),
       description := chars "Update metrics workflow configuration",
       action := .fix_metrics_workflow }])
  ++ (if (pfind patterns (chars "permission_errors")).isEmpty then [] else
    [{ type := chars "permission_fix",
       file := none,
       description := chars "Add missing workflow permissions",
       action := .fix_permissions }])

theorem keys_pappend (p : Patterns) (k v : Str) :
    (pappend p k v).map Prod.fst = p.map Prod.fst := by
  induction p with
  | nil => rfl
  | cons e ps ih => by_cases h : e.1 = k <;> simp [pappend, h, ih]

theorem pfind_pappend_ne (p : Patterns) (v : Str) {k j : Str} (h : k ≠ j) :
    pfind (pappend p k v) j = pfind p j := by
  have g : ¬(k = j) := h
  have g' : ¬(j = k) := fun hh => h hh.symm
  induction p with
  | nil => rfl
  | cons e ps ih =>
    by_cases he : e.1 = k
    · have hj : ¬e.1 = j := by rw [he]; exact h
      simp [pappend, pfind, he, hj, g, g', ih]
    · by_cases hj : e.1 = j <;> simp [pappend, pfind, he, hj, g, g', ih]

theorem pfind_pappend_self (p : Patterns) (v : Str) {k : Str}
    (h : k ∈ p.map Prod.fst) :
    pfind (pappend p k v) k = pfind p k ++ [v] := by
  induction p with
  | nil => simp at h
  | cons e ps ih =>
    by_cases he : e.1 = k
    · simp [pappend, pfind, he]
    · have hk : k ∈ ps.map Prod.fst := by
        rw [List.map_cons] at h
        rcases List.mem_cons.mp h with h' | h'
        · exact absurd h'.symm he
        · exact h'
      simp [pappend, pfind, he, ih hk]

theorem keys_categoryStep (n l : Str) (p : Patterns) :
    (categoryStep n l p).map Prod.fst = p.map Prod.fst := by
  simp only [categoryStep]
  split
  · exact keys_pappend _ _ _
  · split
    · exact keys_pappend _ _ _
    · split
      · exact keys_pappend _ _ _
      · rfl

theorem keys_permStep (r : Nat) (ll : Str) (p : Patterns) :
    (permStep r ll p).map Prod.fst = p.map Prod.fst := by
  simp only [permStep]
  split
  · exact keys_pappend _ _ _
  · rfl

theorem keys_actionStep (r : Nat) (ll : Str) (p : Patterns) :
    (actionStep r ll p).map Prod.fst = p.map Prod.fst := by
  simp only [actionStep]
  split
  · exact keys_pappend _ _ _
  · rfl

theorem keys_tokenStep (r : Nat) (ll : Str) (p : Patterns) :
    (tokenStep r ll p).map Prod.fst = p.map Prod.fst := by
  simp only [tokenStep]
  split
  · exact keys_pappend _ _ _
  · rfl

theorem pfind_categoryStep_ne (n l : Str) (p : Patterns) {k : Str}
    (a : k ≠ chars "profile_readme_failures")
    (b : k ≠ chars "codeql_failures")
    (c : k ≠ chars "metrics_failures") :
    pfind (categoryStep n l p) k = pfind p k := by
  simp only [categoryStep]
  split
  · exact pfind_pappend_ne _ _ (Ne.symm a)
  · split
    · exact pfind_pappend_ne _ _ (Ne.symm b)
    · split
      · exact pfind_pappend_ne _ _ (Ne.symm c)
      · rfl

theorem pfind_permStep_ne (r : Nat) (ll : Str) (p : Patterns) {k : Str}
    (a : k ≠ chars "permission_errors") :
    pfind (permStep r ll p) k = pfind p k := by
  simp only [permStep]
  split
  · exact pfind_pappend_ne _ _ (Ne.symm a)
  · rfl

theorem pfind_actionStep_ne (r : Nat) (ll : Str) (p : Patterns) {k : Str}
    (a : k ≠ chars "action_version_issues") :
    pfind (actionStep r ll p) k = pfind p k := by
  simp only [actionStep]
  split
  · exact pfind_pappend_ne _ _ (Ne.symm a)
  · rfl

theorem pfind_tokenStep_ne (r : Nat) (ll : Str) (p : Patterns) {k : Str}
    (a : k ≠ chars "token_issues") :
    pfind (tokenStep r ll p) k = pfind p k := by
  simp only [tokenStep]
  split
  · exact pfind_pappend_ne _ _ (Ne.symm a)
  · rfl

theorem pfind_permStep_self (r : Nat) (ll : Str) (p : Patterns)
    (c : (containsStr ll (chars "permission") ||
          containsStr ll (chars "forbidden")) = true)
    (m : chars "permission_errors" ∈ p.map Prod.fst) :
    pfind (permStep r ll p) (chars "permission_errors") =
      pfind p (chars "permission_errors") ++
        [chars "Run " ++ natStr r ++ chars ": Permission denied"] := by
  simp only [permStep, c, if_true]
  exact pfind_pappend_self _ _ m

theorem pfind_actionStep_self (r : Nat) (ll : Str) (p : Patterns)
    (c : (containsStr ll (chars "action") &&
          (containsStr ll (chars "deprecated") ||
           containsStr ll (chars "not found"))) = true)
    (m : chars "action_version_issues" ∈ p.map Prod.fst) :
    pfind (actionStep r ll p) (chars "action_version_issues") =
      pfind p (chars "action_version_issues") ++
        [chars "Run " ++ natStr r ++ chars ": Action version issue"] := by
  simp only [actionStep, c, if_true]
  exact pfind_pappend_self _ _ m

theorem pfind_tokenStep_self (r : Nat) (ll : Str) (p : Patterns)
    (c : (containsStr ll (chars "token") &&
          (containsStr ll (chars "invalid") ||
           containsStr ll (chars "expired"))) = true)
    (m : chars "token_issues" ∈ p.map Prod.fst) :
    pfind (tokenStep r ll p) (chars "token_issues") =
      pfind p (chars "token_issues") ++
        [chars "Run " ++ natStr r ++ chars ": Token issue"] := by
  simp only [tokenStep, c, if_true]
  exact pfind_pappend_self _ _ m

/-- Log used to show one job can populate four buckets at once. -/
def c4Log : Str :=
  chars "jamesgeorge007/github-activity-readme Error: Request failed permission action deprecated token invalid"

/-- C4: the three cross-cutting detectors fire on the lowercased log text of every
failed job independently of the workflow name, each appending one entry to its
bucket; they are not mutually exclusive with the per-category classifier, so a
single log can populate four buckets. -/
theorem spec_c4 :
    (∀ (workflow_name : Str) (runId : Nat) (logs : Str) (p : Patterns),
      chars "permission_errors" ∈ p.map Prod.fst →
      (containsStr (lowerStr logs) (chars "permission") ||
        containsStr (lowerStr logs) (chars "forbidden")) = true →
      pfind (processJob workflow_name runId logs p) (chars "permission_errors") =
        pfind p (chars "permission_errors") ++
          [chars "Run " ++ natStr runId ++ chars ": Permission denied"]) ∧
    (∀ (workflow_name : Str) (runId : Nat) (logs : Str) (p : Patterns),
      chars "action_version_issues" ∈ p.map Prod.fst →
      (containsStr (lowerStr logs) (chars "action") &&
        (containsStr (lowerStr logs) (chars "deprecated") ||
         containsStr (lowerStr logs) (chars "not found"))) = true →
      pfind (processJob workflow_name runId logs p) (chars "action_version_issues") =
        pfind p (chars "action_version_issues") ++
          [chars "Run " ++ natStr runId ++ chars ": Action version issue"]) ∧
    (∀ (workflow_name : Str) (runId : Nat) (logs : Str) (p : Patterns),
      chars "token_issues" ∈ p.map Prod.fst →
      (containsStr (lowerStr logs) (chars "token") &&
        (containsStr (lowerStr logs) (chars "invalid") ||
         containsStr (lowerStr logs) (chars "expired"))) = true →
      pfind (processJob workflow_name runId logs p) (chars "token_issues") =
        pfind p (chars "token_issues") ++
          [chars "Run " ++ natStr runId ++ chars ": Token issue"]) ∧
    ((pfind (processJob (chars "README Activity") 3 c4Log initPatterns)
        (chars "profile_readme_failures")).length = 1 ∧
      (pfind (processJob (chars "README Activity") 3 c4Log initPatterns)
        (chars "permission_errors")).length = 1 ∧
      (pfind (processJob (chars "README Activity") 3 c4Log initPatterns)
        (chars "action_version_issues")).length = 1 ∧
      (pfind (processJob (chars "README Activity") 3 c4Log initPatterns)
        (chars "token_issues")).length = 1) := by
  refine ⟨?_, ?_, ?_, ?_⟩
  · intro n r logs p m c
    unfold processJob
    rw [pfind_tokenStep_ne _ _ _ (by decide), pfind_actionStep_ne _ _ _ (by decide),
      pfind_permStep_self _ _ _ c (by rw [keys_categoryStep]; exact m),
      pfind_categoryStep_ne _ _ _ (by decide) (by decide) (by decide)]
  · intro n r logs p m c
    unfold processJob
    rw [pfind_tokenStep_ne _ _ _ (by decide),
      pfind_actionStep_self _ _ _ c
        (by rw [keys_permStep, keys_categoryStep]; exact m),
      pfind_permStep_ne _ _ _ (by decide),
      pfind_categoryStep_ne _ _ _ (by decide) (by decide) (by decide)]
  · intro n r logs p m c
    unfold processJob
    rw [pfind_tokenStep_self _ _ _ c
        (by rw [keys_actionStep, keys_permStep, keys_categoryStep]; exact m),
      pfind_actionStep_ne _ _ _ (by decide),
      pfind_permStep_ne _ _ _ (by decide),
      pfind_categoryStep_ne _ _ _ (by decide) (by decide) (by decide)]
  · decide

/-- C4 witness: concrete instantiations of the three detector statements of
`spec_c4`, with their hypotheses discharged by evaluation. -/
theorem spec_c4_witness :
    (chars "permission_errors" ∈ initPatterns.map Prod.fst ∧
      (containsStr (lowerStr (chars "permission denied")) (chars "permission") ||
        containsStr (lowerStr (chars "permission denied")) (chars "forbidden")) = true ∧
      pfind (processJob (chars "Build") 1 (chars "permission denied") initPatterns)
          (chars "permission_errors") =
        pfind initPatterns (chars "permission_errors") ++
          [chars "Run " ++ natStr 1 ++ chars ": Permission denied"]) ∧
    (chars "action_version_issues" ∈ initPatterns.map Prod.fst ∧
      (containsStr (lowerStr (chars "action xy deprecated")) (chars "action") &&
        (containsStr (lowerStr (chars "action xy deprecated")) (chars "deprecated") ||
         containsStr (lowerStr (chars "action xy deprecated")) (chars "not found"))) = true ∧
      pfind (processJob (chars "Build") 1 (chars "action xy deprecated") initPatterns)
          (chars "action_version_issues") =
        pfind initPatterns (chars "action_version_issues") ++
          [chars "Run " ++ natStr 1 ++ chars ": Action version issue"]) ∧
    (chars "token_issues" ∈ initPatterns.map Prod.fst ∧
      (containsStr (lowerStr (chars "token invalid")) (chars "token") &&
        (containsStr (lowerStr (chars "token invalid")) (chars "invalid") ||
         containsStr (lowerStr (chars "token invalid")) (chars "expired"))) = true ∧
      pfind (processJob (chars "Build") 1 (chars "token invalid") initPatterns)
          (chars "token_issues") =
        pfind initPatterns (chars "token_issues") ++
          [chars "Run " ++ natStr 1 ++ chars ": Token issue"]) :=
  ⟨⟨by decide, by decide,
     spec_c4.1 (chars "Build") 1 (chars "permission denied") initPatterns
       (by decide) (by decide)⟩,
   ⟨by decide, by decide,
     spec_c4.2.1 (chars "Build") 1 (chars "action xy deprecated") initPatterns
       (by decide) (by decide)⟩,
   ⟨by decide, by decide,
     spec_c4.2.2.1 (chars "Build") 1 (chars "token invalid") initPatterns
       (by decide) (by decide)⟩⟩

theorem keys_processJob (n : Str) (r : Nat) (l : Str) (p : Patterns) :
    (processJob n r l p).map Prod.fst = p.map Prod.fst := by
  unfold processJob
  rw [keys_tokenStep, keys_actionStep, keys_permStep, keys_categoryStep]

theorem keys_foldl {α : Type} {f : Patterns → α → Patterns}
    (g : ∀ p a, (f p a).map Prod.fst = p.map Prod.fst) :
    ∀ (l : List α) (p : Patterns), (l.foldl f p).map Prod.fst = p.map Prod.fst := by
  intro l
  induction l with
  | nil => intro p; rfl
  | cons a t ih => intro p; rw [List.foldl_cons, ih, g]

/-- C9: every bucket key in the output of `analyze_failure_patterns` is one of the
six fixed names (the output carries exactly those six keys, in order), and
`generate_fixes` consults no key outside the six: its output is determined by the
buckets stored under the six fixed names. -/
theorem spec_c9 :
    (∀ (jobsOf : Nat → List Job) (logsOf : Nat → Str) (runs : List Run),
      (analyze_failure_patterns jobsOf logsOf runs).map Prod.fst =
        [chars "profile_readme_failures", chars "codeql_failures",
         chars "metrics_failures", chars "permission_errors",
         chars "action_version_issues", chars "token_issues"]) ∧
    (∀ p q : Patterns,
      (∀ k ∈ [chars "profile_readme_failures", chars "codeql_failures",
              chars "metrics_failures", chars "permission_errors",
              chars "action_version_issues", chars "token_issues"],
        pfind p k = pfind q k) →
      generate_fixes p = generate_fixes q) := by
  constructor
  · intro jobsOf logsOf runs
    unfold analyze_failure_patterns
    refine Eq.trans (keys_foldl ?_ runs initPatterns) rfl
    intro p run
    refine keys_foldl ?_ (jobsOf run.id) p
    intro p' job
    split
    · exact keys_processJob _ _ _ _
    · rfl
  · intro p q h
    have h1 := h (chars "profile_readme_failures") (by simp)
    have h2 := h (chars "codeql_failures") (by simp)
    have h3 := h (chars "metrics_failures") (by simp)
    have h4 := h (chars "permission_errors") (by simp)
    unfold generate_fixes
    rw [h1, h2, h3, h4]

/-- Concrete pattern dictionary with readme, codeql and permission buckets
non-empty (used to witness C3 and C9). -/
def c3p : Patterns :=
  [(chars "profile_readme_failures", [chars "API request failure"]),
   (chars "codeql_failures", [chars "No source code found"]),
   (chars "metrics_failures", []),
   (chars "permission_errors", [chars "Run 1: Permission denied"]),
   (chars "action_version_issues", []),
   (chars "token_issues", [])]

/-- Like `c3p` but with different diagnosis strings in the non-empty buckets. -/
def c3q : Patterns :=
  [(chars "profile_readme_failures", [chars "x", chars "y"]),
   (chars "codeql_failures", [chars "z"]),
   (chars "metrics_failures", []),
   (chars "permission_errors", [chars "w"]),
   (chars "action_version_issues", []),
   (chars "token_issues", [])]

/-- C9 witness: concrete run list for the key invariant and concrete dictionaries
for the key-restriction of `generate_fixes`. -/
theorem spec_c9_witness :
    (analyze_failure_patterns (fun _ => [{ id := 5, conclusion := chars "failure" }])
        (fun _ => chars "permission denied") [{ id := 9, name := chars "CodeQL" }]).map
        Prod.fst =
      [chars "profile_readme_failures", chars "codeql_failures",
       chars "metrics_failures", chars "permission_errors",
       chars "action_version_issues", chars "token_issues"] ∧
    ((∀ k ∈ [chars "profile_readme_failures", chars "codeql_failures",
             chars "metrics_failures", chars "permission_errors",
             chars "action_version_issues", chars "token_issues"],
        pfind c3p k = pfind (c3p ++ [(chars "extra", [chars "ignored"])]) k) ∧
      generate_fixes c3p = generate_fixes (c3p ++ [(chars "extra", [chars "ignored"])])) :=
  ⟨spec_c9.1 _ _ _,
   ⟨by decide, spec_c9.2 c3p (c3p ++ [(chars "extra", [chars "ignored"])]) (by decide)⟩⟩

/-- C3: with exactly the readme, codeql and permission buckets non-empty the Fix
Planner returns exactly 3 descriptors typed workflow_update, workflow_update,
permission_fix; and its output depends only on which buckets are non-empty, never
on the diagnosis strings inside them. -/
theorem spec_c3 :
    (∀ p : Patterns,
      (pfind p (chars "profile_readme_failures")).isEmpty = false →
      (pfind p (chars "codeql_failures")).isEmpty = false →
      (pfind p (chars "permission_errors")).isEmpty = false →
      pfind p (chars "metrics_failures") = [] →
      pfind p (chars "action_version_issues") = [] →
      pfind p (chars "token_issues") = [] →
      (generate_fixes p).map FixDesc.type =
        [chars "workflow_update", chars "workflow_update", chars "permission_fix"] ∧
      (generate_fixes p).length = 3) ∧
    (∀ p q : Patterns,
      (∀ k ∈ [chars "profile_readme_failures", chars "codeql_failures",
              chars "metrics_failures", chars "permission_errors",
              chars "action_version_issues", chars "token_issues"],
        (pfind p k).isEmpty = (pfind q k).isEmpty) →
      generate_fixes p = generate_fixes q) := by
  constructor
  · intro p h1 h2 h3 h4 _h5 _h6
    unfold generate_fixes
    rw [h1, h2, h3, h4]
    simp
  · intro p q h
    have h1 := h (chars "profile_readme_failures") (by simp)
    have h2 := h (chars "codeql_failures") (by simp)
    have h3 := h (chars "metrics_failures") (by simp)
    have h4 := h (chars "permission_errors") (by simp)
    unfold generate_fixes
    rw [h1, h2, h3, h4]

/-- C3 witness: the planner evaluated on `c3p` (readme, codeql, permission
non-empty) and the content-independence instantiated at `c3p`, `c3q`. -/
theorem spec_c3_witness :
    ((pfind c3p (chars "profile_readme_failures")).isEmpty = false ∧
      (pfind c3p (chars "codeql_failures")).isEmpty = false ∧
      (pfind c3p (chars "permission_errors")).isEmpty = false ∧
      pfind c3p (chars "metrics_failures") = [] ∧
      pfind c3p (chars "action_version_issues") = [] ∧
      pfind c3p (chars "token_issues") = [] ∧
      (generate_fixes c3p).map FixDesc.type =
        [chars "workflow_update", chars "workflow_update", chars "permission_fix"] ∧
      (generate_fixes c3p).length = 3) ∧
    ((∀ k ∈ [chars "profile_readme_failures", chars "codeql_failures",
             chars "metrics_failures", chars "permission_errors",
             chars "action_version_issues", chars "token_issues"],
        (pfind c3p k).isEmpty = (pfind c3q k).isEmpty) ∧
      generate_fixes c3p = generate_fixes c3q) :=
  ⟨⟨by decide, by decide, by decide, by decide, by decide, by decide,
     spec_c3.1 c3p (by decide) (by decide) (by decide) (by decide) (by decide) (by decide)⟩,
   ⟨by decide, spec_c3.2 c3p c3q (by decide)⟩⟩

/-- A directory tree: the regular files in this directory and the named
subdirectories (models the filesystem walked by `os.walk('.')`). -/
inductive FileTree where
  | node : List Str → List (Str × FileTree) → FileTree

/-- The pruning filter `_detect_repository_languages` applies to `dirs[:]`:
drop directories whose name starts with '.' or equals 'node_modules'. -/
def keepDir (name : Str) : Bool :=
  match name with
  | '.' :: _ => false
  | _ => !(name = chars "node_modules" : Bool)

mutual
/-- The regular files visited by the pruned top-down walk of `os.walk('.')`:
this directory's files, then the kept subdirectories in order. -/
def walkFiles : FileTree → List Str
  | .node fs ds => fs ++ walkDirs ds

/-- Walk a directory listing, recursing only into non-pruned entries. -/
def walkDirs : List (Str × FileTree) → List Str
  | [] => []
  | d :: ds => (if keepDir d.1 then walkFiles d.2 else []) ++ walkDirs ds
end

/-- The suffix of a name starting at its last '.', or `[]` if it has no dot. -/
def suffixFromLastDot : Str → Str
  | [] => []
  | c :: rest =>
    let r := suffixFromLastDot rest
    if r.isEmpty then (if c = '.' then c :: rest else []) else r

/-- `os.path.splitext(name)[1]`: the extension from the last dot, empty when the
name consists only of leading dots up to that point. -/
def splitextExt (name : Str) : Str :=
  let ext := suffixFromLastDot name
  if ext.isEmpty then [] else
    if (name.take (name.length - ext.length)).any (fun c => !(c = '.' : Bool))
    then ext else []

/-- The fixed CodeQL supported-language table of `_detect_repository_languages`,
in source order. -/
def supported_languages : List (Str × List Str) :=
  [(chars "javascript",
     [chars ".js", chars ".jsx", chars ".ts", chars ".tsx", chars ".vue"]),
   (chars "python", [chars ".py"]),
   (chars "java", [chars ".java"]),
   (chars "csharp", [chars ".cs"]),
   (chars "cpp",
     [chars ".cpp", chars ".c", chars ".cc", chars ".cxx", chars ".h", chars ".hpp"]),
   (chars "go", [chars ".go"]),
   (chars "ruby", [chars ".rb"])]

/-- The inner loop over the language table for one file extension:
`if file_ext in extensions and lang not in detected: detected.append(lang)`. -/
def detectLangs (ext : Str) : List (Str × List Str) → List Str → List Str
  | [], detected => detected
  | e :: table, detected =>
    detectLangs ext table
      (if ext ∈ e.2 ∧ e.1 ∉ detected then detected ++ [e.1] else detected)

/-- The loop over all visited files of `_detect_repository_languages`. -/
def detectFiles : List Str → List Str → List Str
  | [], detected => detected
  | f :: files, detected =>
    detectFiles files
      (detectLangs (lowerStr (splitextExt f)) supported_languages detected)

/-- `GitHubActionsResolver._detect_repository_languages` on a modelled tree. -/
def _detect_repository_languages (t : FileTree) : List Str :=
  detectFiles (walkFiles t) []

theorem mem_detectLangs_of_mem {x : Str} (ext : Str) (table : List (Str × List Str))
    {det : List Str} (h : x ∈ det) : x ∈ detectLangs ext table det := by
  induction table generalizing det with
  | nil => exact h
  | cons e t ih =>
    simp only [detectLangs]
    apply ih
    split
    · exact List.mem_append_left _ h
    · exact h

theorem mem_of_mem_detectLangs {x ext : Str} {table : List (Str × List Str)}
    {det : List Str} (h : x ∈ detectLangs ext table det) :
    x ∈ det ∨ ∃ e ∈ table, x = e.1 ∧ ext ∈ e.2 := by
  induction table generalizing det with
  | nil => exact Or.inl h
  | cons e t ih =>
    simp only [detectLangs] at h
    rcases ih h with h' | ⟨e', he', hx⟩
    · by_cases hc : ext ∈ e.2 ∧ e.1 ∉ det
      · rw [if_pos hc] at h'
        rcases List.mem_append.mp h' with h'' | h''
        · exact Or.inl h''
        · exact Or.inr ⟨e, List.mem_cons_self _ _, List.mem_singleton.mp h'', hc.1⟩
      · rw [if_neg hc] at h'
        exact Or.inl h'
    · exact Or.inr ⟨e', List.mem_cons_of_mem _ he', hx⟩

theorem lang_mem_detectLangs {ext : Str} {e : Str × List Str} (g : ext ∈ e.2) :
    ∀ table : List (Str × List Str), e ∈ table →
      ∀ det : List Str, e.1 ∈ detectLangs ext table det := by
  intro table
  induction table with
  | nil => intro he; cases he
  | cons a t ih =>
    intro he det
    rcases List.mem_cons.mp he with h | h
    · subst h
      simp only [detectLangs]
      by_cases hd : e.1 ∈ det
      · refine mem_detectLangs_of_mem _ _ ?_
        split
        · exact List.mem_append_left _ hd
        · exact hd
      · rw [if_pos ⟨g, hd⟩]
        exact mem_detectLangs_of_mem _ _
          (List.mem_append_right _ (List.mem_singleton.mpr rfl))
    · exact ih h _

theorem nodup_detectLangs (ext : Str) (table : List (Str × List Str))
    {det : List Str} (h : det.Nodup) : (detectLangs ext table det).Nodup := by
  induction table generalizing det with
  | nil => exact h
  | cons e t ih =>
    simp only [detectLangs]
    apply ih
    by_cases hc : ext ∈ e.2 ∧ e.1 ∉ det
    · rw [if_pos hc, List.nodup_append]
      refine ⟨h, List.nodup_singleton _, ?_⟩
      intro x hx hx'
      rw [List.mem_singleton] at hx'
      subst hx'
      exact hc.2 hx
    · rw [if_neg hc]; exact h

theorem mem_detectFiles_of_mem {x : Str} (files : List Str) {det : List Str}
    (h : x ∈ det) : x ∈ detectFiles files det := by
  induction files generalizing det with
  | nil => exact h
  | cons f fs ih => exact ih (mem_detectLangs_of_mem _ _ h)

theorem mem_of_mem_detectFiles {x : Str} {files : List Str} {det : List Str}
    (h : x ∈ detectFiles files det) :
    x ∈ det ∨ ∃ f ∈ files, ∃ e ∈ supported_languages,
      x = e.1 ∧ lowerStr (splitextExt f) ∈ e.2 := by
  induction files generalizing det with
  | nil => exact Or.inl h
  | cons f fs ih =>
    simp only [detectFiles] at h
    rcases ih h with h' | ⟨f', hf', hrest⟩
    · rcases mem_of_mem_detectLangs h' with h'' | ⟨e, he, hx, hext⟩
      · exact Or.inl h''
      · exact Or.inr ⟨f, List.mem_cons_self _ _, e, he, hx, hext⟩
    · exact Or.inr ⟨f', List.mem_cons_of_mem _ hf', hrest⟩

theorem lang_mem_detectFiles {f : Str} {e : Str × List Str}
    (g : e ∈ supported_languages) (g' : lowerStr (splitextExt f) ∈ e.2) :
    ∀ files : List Str, f ∈ files → ∀ det, e.1 ∈ detectFiles files det := by
  intro files
  induction files with
  | nil => intro hf; cases hf
  | cons a fs ih =>
    intro hf det
    rcases List.mem_cons.mp hf with h | h
    · subst h
      simp only [detectFiles]
      exact mem_detectFiles_of_mem _ (lang_mem_detectLangs g' _ g _)
    · exact ih h _

theorem nodup_detectFiles (files : List Str) {det : List Str} (h : det.Nodup) :
    (detectFiles files det).Nodup := by
  induction files generalizing det with
  | nil => exact h
  | cons f fs ih => exact ih (nodup_detectLangs _ _ h)

/-- C6: a tree whose non-pruned directories contain `test.py` and `main.js` and no
other file with a supported extension is detected as exactly the two languages
python and javascript; the detector's result never contains duplicates. -/
theorem spec_c6 :
    (∀ t : FileTree,
      chars "test.py" ∈ walkFiles t →
      chars "main.js" ∈ walkFiles t →
      (∀ f ∈ walkFiles t, f = chars "test.py" ∨ f = chars "main.js" ∨
        ∀ e ∈ supported_languages, lowerStr (splitextExt f) ∉ e.2) →
      chars "python" ∈ _detect_repository_languages t ∧
      chars "javascript" ∈ _detect_repository_languages t ∧
      (_detect_repository_languages t).length = 2) ∧
    (∀ t : FileTree, (_detect_repository_languages t).Nodup) := by
  constructor
  · intro t hpy hjs hother
    have hpy' : chars "python" ∈ _detect_repository_languages t := by
      unfold _detect_repository_languages
      exact lang_mem_detectFiles (e := (chars "python", [chars ".py"]))
        (by decide) (by decide) _ hpy _
    have hjs' : chars "javascript" ∈ _detect_repository_languages t := by
      unfold _detect_repository_languages
      exact lang_mem_detectFiles
        (e := (chars "javascript",
          [chars ".js", chars ".jsx", chars ".ts", chars ".tsx", chars ".vue"]))
        (by decide) (by decide) _ hjs _
    have hnd : (_detect_repository_languages t).Nodup :=
      nodup_detectFiles _ List.nodup_nil
    have hsub : ∀ x ∈ _detect_repository_languages t,
        x = chars "javascript" ∨ x = chars "python" := by
      intro x hx
      rcases mem_of_mem_detectFiles hx with h | ⟨f, hf, e, he, hxe, hext⟩
      · cases h
      · subst hxe
        rcases hother f hf with rfl | rfl | hno
        · fin_cases he <;> revert hext <;> decide
        · fin_cases he <;> revert hext <;> decide
        · exact absurd hext (hno e he)
    refine ⟨hpy', hjs', ?_⟩
    have hfin : (_detect_repository_languages t).toFinset =
        {chars "javascript", chars "python"} := by
      ext x
      simp only [List.mem_toFinset, Finset.mem_insert, Finset.mem_singleton]
      constructor
      · exact hsub x
      · rintro (rfl | rfl)
        · exact hjs'
        · exact hpy'
    have hcard := List.card_toFinset (_detect_repository_languages t)
    rw [hfin, List.dedup_eq_self.mpr hnd] at hcard
    rw [← hcard]
    decide
  · intro t
    exact nodup_detectFiles _ List.nodup_nil

/-- Concrete tree containing exactly `test.py` and `main.js` at the root. -/
def c6Tree : FileTree := .node [chars "test.py", chars "main.js"] []

/-- C6 witness: `spec_c6` instantiated at `c6Tree`, hypotheses by evaluation. -/
theorem spec_c6_witness :
    (chars "test.py" ∈ walkFiles c6Tree ∧
      chars "main.js" ∈ walkFiles c6Tree ∧
      (∀ f ∈ walkFiles c6Tree, f = chars "test.py" ∨ f = chars "main.js" ∨
        ∀ e ∈ supported_languages, lowerStr (splitextExt f) ∉ e.2) ∧
      (chars "python" ∈ _detect_repository_languages c6Tree ∧
        chars "javascript" ∈ _detect_repository_languages c6Tree ∧
        (_detect_repository_languages c6Tree).length = 2)) ∧
    (_detect_repository_languages c6Tree).Nodup :=
  ⟨⟨by decide, by decide, by decide,
    spec_c6.1 c6Tree (by decide) (by decide) (by decide)⟩,
   spec_c6.2 c6Tree⟩

/-- A permissions mapping of a job (e.g. contents: write). -/
abbrev Perms := List (Str × Str)

/-- A workflow step: the optional action reference `uses` and the optional
`continue-on-error` flag (the only step fields the fix routines touch). -/
structure StepW where
  uses : Option Str
  continue_on_error : Option Bool
deriving DecidableEq

/-- The `language` entry of a job's strategy matrix. -/
structure MatrixW where
  language : Option (List Str)
deriving DecidableEq

/-- A job's strategy block, optionally carrying a matrix. -/
structure StratW where
  matrix : Option MatrixW
deriving DecidableEq

/-- A workflow job: optional permissions block, ordered steps, optional strategy. -/
structure JobW where
  permissions : Option Perms
  steps : List StepW
  strategy : Option StratW
deriving DecidableEq

/-- A parsed workflow document: trigger configuration and named jobs. -/
structure Workflow where
  «on» : List (Str × Option Str)
  jobs : List (Str × JobW)
deriving DecidableEq

/-- Per-step edit of `_fix_profile_readme_workflow`: steps whose action reference
contains the readme-activity vendor/name are pinned to v1.6.4. -/
def stepFixReadme (s : StepW) : StepW :=
  if containsStr (s.uses.getD []) (chars "jamesgeorge007/github-activity-readme") then
    { s with uses := some (chars "jamesgeorge007/github-activity-readme@v1.6.4") }
  else s

/-- Per-job edit of `_fix_profile_readme_workflow`: pin matching steps; if some
step matched and the job has no permissions block, inject contents: write. -/
def jobFixReadme (j : JobW) : JobW :=
  let hit := j.steps.any (fun s =>
    containsStr (s.uses.getD []) (chars "jamesgeorge007/github-activity-readme"))
  { j with
    steps := j.steps.map stepFixReadme,
    permissions :=
      if hit && j.permissions.isNone then some [(chars "contents", chars "write")]
      else j.permissions }

/-- The pure document transformation performed by `_fix_profile_readme_workflow`
between reading and rewriting the file. -/
def fix_profile_readme_doc (w : Workflow) : Workflow :=
  { w with jobs := w.jobs.map (fun e => (e.1, jobFixReadme e.2)) }

/-- The `uses` field of every step of every job, in order. -/
def usesOf (w : Workflow) : List (List (Option Str)) :=
  w.jobs.map (fun e => e.2.steps.map (fun s => s.uses))

theorem stepFixReadme_idem (s : StepW) :
    stepFixReadme (stepFixReadme s) = stepFixReadme s := by
  by_cases h : containsStr (s.uses.getD [])
      (chars "jamesgeorge007/github-activity-readme") = true
  · simp only [stepFixReadme, h, if_true]
    have : containsStr
        ((some (chars "jamesgeorge007/github-activity-readme@v1.6.4")).getD [])
        (chars "jamesgeorge007/github-activity-readme") = true := by decide
    simp [this]
  · simp only [stepFixReadme, h]
    simp only [Bool.false_eq_true, if_false]
    rw [if_neg h]

/-- C7: the profile-readme fix is idempotent on the pinned action references:
after a second application every step's `uses` field is unchanged. -/
theorem spec_c7 (w : Workflow) :
    usesOf (fix_profile_readme_doc (fix_profile_readme_doc w)) =
      usesOf (fix_profile_readme_doc w) := by
  unfold usesOf fix_profile_readme_doc
  simp only [List.map_map]
  refine List.map_congr_left ?_
  intro e _
  simp only [Function.comp_apply, jobFixReadme, List.map_map]
  refine List.map_congr_left ?_
  intro s _
  simp only [Function.comp_apply, stepFixReadme_idem]

/-- An on-disk workflow file as seen by a fix routine: it parses to a document,
or raises on read/parse (`bad`); a missing path is simply absent from the map. -/
inductive FileEntry where
  | ok : Workflow → FileEntry
  | bad : FileEntry
deriving DecidableEq

/-- Filesystem lookup by path (`none` models a missing file). -/
def fsFind : List (Str × FileEntry) → Str → Option FileEntry
  | [], _ => none
  | e :: fs, p => if e.1 = p then some e.2 else fsFind fs p

/-- Overwrite (or create) the entry at path `p`. -/
def fsWrite : List (Str × FileEntry) → Str → FileEntry → List (Str × FileEntry)
  | [], p, v => [(p, v)]
  | e :: fs, p, v => if e.1 = p then (p, v) :: fs else e :: fsWrite fs p v

/-- The observable per-cycle state: the parsed filesystem, the paths whose
open-for-write raises (e.g. a read-only file, so `yaml.dump` never happens), the
log of file opens and of file writes, report files written, the `fixes_applied`
notes, and the number of HTTP requests issued so far. -/
structure St where
  fs : List (Str × FileEntry)
  roPaths : List Str
  reads : List Str
  writes : List Str
  reportFiles : List (Str × Str)
  fixes_applied : List Str
  netCalls : Nat
deriving DecidableEq

/-- `open(path)` followed by `yaml.safe_load`: records the open attempt; `none`
models the exception raised for a missing or unparseable file. -/
def readFileSt (path : Str) (s : St) : Option Workflow × St :=
  let s1 : St := { s with reads := s.reads ++ [path] }
  match fsFind s.fs path with
  | some (.ok w) => (some w, s1)
  | _ => (none, s1)

/-- `open(path, mode w)` followed by `yaml.dump`: overwrite the document, or
`none` for the exception raised when the path cannot be opened for writing. -/
def writeFileSt (path : Str) (w : Workflow) (s : St) : Option St :=
  if path ∈ s.roPaths then none
  else some { s with fs := fsWrite s.fs path (.ok w), writes := s.writes ++ [path] }

def profileReadmePath : Str := chars ".github/workflows/profile-readme.yml"

def codeqlPath : Str := chars ".github/workflows/codeql-analysis.yml"

def metricsPath : Str := chars ".github/workflows/metrics.yml"

/-- `GitHubActionsResolver._fix_profile_readme_workflow`. -/
def _fix_profile_readme_workflow (s : St) : Bool × St :=
  match readFileSt profileReadmePath s with
  | (none, s1) => (false, s1)
  | (some w, s1) =>
    match writeFileSt profileReadmePath (fix_profile_readme_doc w) s1 with
    | none => (false, s1)
    | some s2 =>
      (true, { s2 with fixes_applied := s2.fixes_applied ++
        [chars "Updated profile README workflow to stable version"] })

/-- Separator-joined concatenation, for the Python list repr. -/
def joinSep : List Str → Str → Str
  | [], _ => []
  | [x], _ => x
  | x :: y :: rest, sep => x ++ sep ++ joinSep (y :: rest) sep

/-- Python `repr` of a list of strings, as interpolated into the CodeQL note. -/
def pyListRepr (l : List Str) : Str :=
  '[' :: joinSep (l.map (fun s => sqc :: s ++ [sqc])) (chars ", ") ++ [']']

/-- Set the language entry of a job's strategy matrix when both keys exist. -/
def setMatrixLang (detected : List Str) (j : JobW) : JobW :=
  match j.strategy with
  | some st =>
    match st.matrix with
    | some m =>
      { j with strategy :=
          (some { st with matrix := some { m with language := some detected } }) }
    | none => j
  | none => j

/-- `GitHubActionsResolver._fix_codeql_workflow` (the tree models the repository
scanned by the Language Detector). -/
def _fix_codeql_workflow (tree : FileTree) (s : St) : Bool × St :=
  match readFileSt codeqlPath s with
  | (none, s1) => (false, s1)
  | (some w, s1) =>
    let detected := _detect_repository_languages tree
    if detected.isEmpty then
      let w1 : Workflow := { w with «on» := [(chars "workflow_dispatch", none)] }
      let s2 : St := { s1 with fixes_applied := s1.fixes_applied ++
        [chars "Disabled CodeQL workflow - no supported languages detected"] }
      match writeFileSt codeqlPath w1 s2 with
      | none => (false, s2)
      | some s3 => (true, s3)
    else
      let w1 : Workflow :=
        { w with jobs := w.jobs.map (fun e => (e.1, setMatrixLang detected e.2)) }
      let s2 : St := { s1 with fixes_applied := s1.fixes_applied ++
        [chars "Updated CodeQL languages to: " ++ pyListRepr detected] }
      match writeFileSt codeqlPath w1 s2 with
      | none => (false, s2)
      | some s3 => (true, s3)

/-- Per-step edit of `_fix_metrics_workflow`: pin the metrics action and mark the
step as non-fatal on error. -/
def fixMetricsStep (s : StepW) : StepW :=
  if containsStr (s.uses.getD []) (chars "lowlighter/metrics") then
    { s with uses := some (chars "lowlighter/metrics@v3.34"),
             continue_on_error := some true }
  else s

/-- Per-job edit of `_fix_metrics_workflow`: inject permissions when absent, then
edit the steps. -/
def fixMetricsJob (j : JobW) : JobW :=
  let j1 := if j.permissions.isNone then
      { j with permissions :=
          (some [(chars "contents", chars "write"), (chars "actions", chars "read")]) }
    else j
  { j1 with steps := j1.steps.map fixMetricsStep }

/-- `GitHubActionsResolver._fix_metrics_workflow`. -/
def _fix_metrics_workflow (s : St) : Bool × St :=
  match readFileSt metricsPath s with
  | (none, s1) => (false, s1)
  | (some w, s1) =>
    let w1 : Workflow :=
      { w with jobs := w.jobs.map (fun e => (e.1, fixMetricsJob e.2)) }
    match writeFileSt metricsPath w1 s1 with
    | none => (false, s1)
    | some s2 =>
      (true, { s2 with fixes_applied := s2.fixes_applied ++
        [chars "Updated metrics workflow with proper permissions and error handling"] })

/-- A contents-write / actions-read block injected into jobs lacking one
(`_fix_permissions`). -/
def injectJobPerms (j : JobW) : JobW :=
  if j.permissions.isNone then
    { j with permissions :=
        (some [(chars "contents", chars "write"), (chars "actions", chars "read")]) }
  else j

/-- The per-file loop of `_fix_permissions`: a missing file is silently skipped;
a read, parse or write error aborts the whole routine with failure; otherwise
permissions are injected, the file rewritten, and the loop continues. -/
def fixPermissionsLoop : List Str → St → Bool × St
  | [], s => (true, s)
  | path :: rest, s =>
    match fsFind s.fs path with
    | none => fixPermissionsLoop rest s
    | some entry =>
      let s1 : St := { s with reads := s.reads ++ [path] }
      match entry with
      | .bad => (false, s1)
      | .ok w =>
        let w1 : Workflow :=
          { w with jobs := w.jobs.map (fun e => (e.1, injectJobPerms e.2)) }
        match writeFileSt path w1 s1 with
        | none => (false, s1)
        | some s2 =>
          fixPermissionsLoop rest
            { s2 with fixes_applied := s2.fixes_applied ++
              [chars "Added permissions to " ++ path] }

/-- `GitHubActionsResolver._fix_permissions`: the two fixed workflow files, in
order. -/
def _fix_permissions (s : St) : Bool × St :=
  fixPermissionsLoop [profileReadmePath, metricsPath] s

/-- Dispatch the bound routine of a fix descriptor (`fix['action']()`). -/
def runFixAction (tree : FileTree) (a : FixAction) (s : St) : Bool × St :=
  match a with
  | .fix_profile_readme_workflow => _fix_profile_readme_workflow s
  | .fix_codeql_workflow => _fix_codeql_workflow tree s
  | .fix_metrics_workflow => _fix_metrics_workflow s
  | .fix_permissions => _fix_permissions s

/-- `GitHubActionsResolver.apply_fixes`: run each fix in order, record the
per-description outcome, never abort on an individual failure. -/
def apply_fixes (tree : FileTree) : List FixDesc → St → List (Str × Bool) × St
  | [], s => ([], s)
  | f :: rest, s =>
    let r := runFixAction tree f.action s
    let rs := apply_fixes tree rest r.2
    ((f.description, r.1) :: rs.1, rs.2)

/-- Newline-joined concatenation of the report lines. -/
def joinLines : List Str → Str
  | [] => []
  | [l] => l
  | l :: l2 :: rest => l ++ '\n' :: joinLines (l2 :: rest)

/-- Python `str.title()` for ASCII text: uppercase each letter that starts a run
of letters, lowercase the others (the carry says whether the previous character
was a letter). -/
def titleChars : Str → Bool → Str
  | [], _ => []
  | c :: rest, prevAlpha =>
    (if prevAlpha then c.toLower else c.toUpper) :: titleChars rest c.isAlpha

/-- The report section header derived from a bucket name: underscores to spaces,
then title case. -/
def sectionTitle (k : Str) : Str :=
  titleChars (k.map (fun c => if c = '_' then ' ' else c)) false

/-- The issues section of the report: one subsection per non-empty bucket. -/
def issueSections : Patterns → List Str
  | [] => []
  | e :: ps =>
    (if e.2.isEmpty then []
     else (chars "### " ++ sectionTitle e.1)
       :: e.2.map (fun issue => chars "- " ++ issue) ++ [[]])
    ++ issueSections ps

/-- `GitHubActionsResolver.generate_report` (`timestamp` models the formatted
`datetime.now()`; pure function of its inputs). -/
def generate_report (owner repoName timestamp : Str) (patterns : Patterns)
    (fix_results : List (Str × Bool)) (fixes_applied : List Str) : Str :=
  joinLines
    ([chars "# CI/CD Failure Resolution Report",
      chars "Generated: " ++ timestamp,
      chars "Repository: " ++ owner ++ chars "/" ++ repoName,
      [],
      chars "## Issues Identified"]
    ++ issueSections patterns
    ++ [chars "## Fixes Applied"]
    ++ fix_results.map (fun r =>
        (if r.2 then chars "- ✅ SUCCESS: " else chars "- ❌ FAILED: ") ++ r.1)
    ++ [[]]
    ++ (if fixes_applied.isEmpty then []
        else chars "## Additional Changes"
          :: fixes_applied.map (fun f => chars "- " ++ f) ++ [[]])
    ++ [chars "## Recommendations",
        chars "- Monitor workflow runs for the next 24-48 hours",
        chars "- Consider adding workflow status badges to README",
        chars "- Set up notifications for workflow failures",
        chars "- Review and update action versions quarterly"])

/-- The external environment of one resolution cycle: repository identity, the
forge API responses, the local file tree, and the formatted clock readings. -/
structure CycleEnv where
  owner : Str
  repoName : Str
  failedRuns : List Run
  jobsOf : Nat → List Job
  logsOf : Nat → Str
  tree : FileTree
  timestamp : Str
  fileTimestamp : Str

/-- Number of HTTP requests `analyze_failure_patterns` makes: one job listing per
run plus one log fetch per failed job. -/
def analyzeNetCalls (env : CycleEnv) (runs : List Run) : Nat :=
  runs.foldl (fun n r =>
    n + 1 +
      ((env.jobsOf r.id).filter
        (fun j => decide (j.conclusion = chars "failure"))).length) 0

/-- `GitHubActionsResolver.run_resolution_cycle`: fetch failed runs (one HTTP
call), short-circuit when none, else analyze, plan, apply, report, persist. -/
def run_resolution_cycle (env : CycleEnv) (s : St) : Str × St :=
  let s0 : St := { s with netCalls := s.netCalls + 1 }
  let failed_runs := env.failedRuns
  if failed_runs.isEmpty then (chars "No recent failed runs found.", s0)
  else
    let s1 : St := { s0 with netCalls := s0.netCalls + analyzeNetCalls env failed_runs }
    let patterns := analyze_failure_patterns env.jobsOf env.logsOf failed_runs
    let fixes := generate_fixes patterns
    let r := apply_fixes env.tree fixes s1
    let report :=
      generate_report env.owner env.repoName env.timestamp patterns r.1 r.2.fixes_applied
    let s2 : St := { r.2 with reportFiles := r.2.reportFiles ++
      [(chars "ci_resolution_report_" ++ env.fileTimestamp ++ chars ".md", report)] }
    (report, s2)

/-- Python truthiness of an optional string: `None` and the empty string are
falsy (`args.token or os.getenv`, `if not github_token`). -/
def pyTruthy : Option Str → Bool
  | none => false
  | some s => !s.isEmpty

/-- Exit code and final state of one process run. -/
structure MainResult where
  exitCode : Nat
  st : St

/-- `run_resolver.main`: token resolution from flag then environment; a missing
or empty token exits with status 1 via `sys.exit(1)` before any network call;
dry-run fetches and analyzes without applying, otherwise the full cycle runs. -/
def run_resolver_main (tokenFlag envToken : Option Str) (dryRun : Bool)
    (env : CycleEnv) (s : St) : MainResult :=
  let github_token := if pyTruthy tokenFlag then tokenFlag else envToken
  if !pyTruthy github_token then { exitCode := 1, st := s }
  else if dryRun then
    let s0 : St := { s with netCalls := s.netCalls + 1 }
    if env.failedRuns.isEmpty then { exitCode := 0, st := s0 }
    else
      { exitCode := 0,
        st := { s0 with netCalls := s0.netCalls + analyzeNetCalls env env.failedRuns } }
  else
    { exitCode := 0, st := (run_resolution_cycle env s).2 }

/-- `ci_failure_resolver.main`: a missing token is logged and the function merely
returns, so the process finishes with exit status 0; otherwise the cycle runs. -/
def ci_resolver_main (envToken : Option Str) (env : CycleEnv) (s : St) : MainResult :=
  if !pyTruthy envToken then { exitCode := 0, st := s }
  else { exitCode := 0, st := (run_resolution_cycle env s).2 }

/-- An environment with no failed runs, empty responses and repository defaults. -/
def emptyEnv : CycleEnv :=
  { owner := chars "xepoctpat", repoName := chars "xepoctpat", failedRuns := [],
    jobsOf := fun _ => [], logsOf := fun _ => [], tree := .node [] [],
    timestamp := [], fileTimestamp := [] }

/-- The state at process start: empty filesystem model, no effects recorded. -/
def initSt : St :=
  { fs := [], roPaths := [], reads := [], writes := [], reportFiles := [],
    fixes_applied := [], netCalls := 0 }

/-- C8: with no failed runs the cycle returns exactly the fixed message and
performs no file writes: filesystem, write log and report files are unchanged. -/
theorem spec_c8 (env : CycleEnv) (s : St) (h : env.failedRuns = []) :
    (run_resolution_cycle env s).1 = chars "No recent failed runs found." ∧
    (run_resolution_cycle env s).2.fs = s.fs ∧
    (run_resolution_cycle env s).2.writes = s.writes ∧
    (run_resolution_cycle env s).2.reportFiles = s.reportFiles := by
  simp [run_resolution_cycle, h]

/-- C8 witness: `spec_c8` at the environment with no failed runs. -/
theorem spec_c8_witness :
    emptyEnv.failedRuns = [] ∧
    ((run_resolution_cycle emptyEnv initSt).1 = chars "No recent failed runs found." ∧
      (run_resolution_cycle emptyEnv initSt).2.fs = initSt.fs ∧
      (run_resolution_cycle emptyEnv initSt).2.writes = initSt.writes ∧
      (run_resolution_cycle emptyEnv initSt).2.reportFiles = initSt.reportFiles) :=
  ⟨rfl, spec_c8 emptyEnv initSt rfl⟩

theorem fsFind_fsWrite_ne (fs : List (Str × FileEntry)) (v : FileEntry)
    {p q : Str} (h : p ≠ q) : fsFind (fsWrite fs p v) q = fsFind fs q := by
  have g : ¬(p = q) := h
  have g' : ¬(q = p) := fun hh => h hh.symm
  induction fs with
  | nil => simp [fsWrite, fsFind, g]
  | cons e rest ih =>
    by_cases he : e.1 = p
    · have hq : ¬(e.1 = q) := by rw [he]; exact h
      simp [fsWrite, fsFind, he, g, g', hq, ih]
    · by_cases hq : e.1 = q <;> simp [fsWrite, fsFind, he, hq, g, g', ih]

theorem fixPermissionsLoop_none_step (path : Str) (rest : List Str) (s : St)
    (h : fsFind s.fs path = none) :
    fixPermissionsLoop (path :: rest) s = fixPermissionsLoop rest s := by
  simp [fixPermissionsLoop, h]

theorem fixPermissionsLoop_bad_step (path : Str) (rest : List Str) (s : St)
    (h : fsFind s.fs path = some .bad) :
    fixPermissionsLoop (path :: rest) s =
      (false, { s with reads := s.reads ++ [path] }) := by
  simp [fixPermissionsLoop, h]

theorem fixPermissionsLoop_ok_step (path : Str) (rest : List Str) (s : St)
    (w : Workflow) (h : fsFind s.fs path = some (.ok w))
    (g : path ∉ s.roPaths) :
    fixPermissionsLoop (path :: rest) s =
      fixPermissionsLoop rest
        { s with
          fs := fsWrite s.fs path
            (.ok { w with jobs := w.jobs.map (fun e => (e.1, injectJobPerms e.2)) }),
          reads := s.reads ++ [path],
          writes := s.writes ++ [path],
          fixes_applied := s.fixes_applied ++
            [chars "Added permissions to " ++ path] } := by
  simp [fixPermissionsLoop, h, writeFileSt, g]

theorem fixPermissionsLoop_wfail_step (path : Str) (rest : List Str) (s : St)
    (w : Workflow) (h : fsFind s.fs path = some (.ok w))
    (g : path ∈ s.roPaths) :
    fixPermissionsLoop (path :: rest) s =
      (false, { s with reads := s.reads ++ [path] }) := by
  simp [fixPermissionsLoop, h, writeFileSt, g]

theorem fixPermissionsLoop_last_reads (path : Str) (t : St) (e : FileEntry)
    (h : fsFind t.fs path = some e) :
    path ∈ (fixPermissionsLoop [path] t).2.reads := by
  cases e with
  | bad =>
    rw [fixPermissionsLoop_bad_step _ _ _ h]
    simp
  | ok w =>
    by_cases g : path ∈ t.roPaths
    · rw [fixPermissionsLoop_wfail_step _ _ _ _ h g]
      simp
    · rw [fixPermissionsLoop_ok_step _ _ _ _ h g]
      simp [fixPermissionsLoop]

theorem fixPermissionsLoop_last_writes (path : Str) (t : St) (w : Workflow)
    (h : fsFind t.fs path = some (.ok w)) (g : path ∉ t.roPaths) :
    path ∈ (fixPermissionsLoop [path] t).2.writes := by
  rw [fixPermissionsLoop_ok_step _ _ _ _ h g]
  simp [fixPermissionsLoop]

/-- C10: in `_fix_permissions`, an error while reading, parsing or writing the
first workflow file aborts the routine with failure immediately — the second
file is never opened or modified and the state changes only by the one recorded
open of the first file; the second file is attempted (opened, and rewritten when
it parses and is writable) exactly when the first one is absent or processed
without error. -/
theorem spec_c10 :
    (∀ s : St,
      (fsFind s.fs profileReadmePath = some .bad ∨
        ((∃ u : Workflow, fsFind s.fs profileReadmePath = some (.ok u)) ∧
          profileReadmePath ∈ s.roPaths)) →
      _fix_permissions s =
        (false, { s with reads := s.reads ++ [profileReadmePath] })) ∧
    (∀ s : St,
      (fsFind s.fs profileReadmePath = none ∨
        ((∃ u : Workflow, fsFind s.fs profileReadmePath = some (.ok u)) ∧
          profileReadmePath ∉ s.roPaths)) →
      (∀ e : FileEntry, fsFind s.fs metricsPath = some e →
        metricsPath ∈ (_fix_permissions s).2.reads) ∧
      (∀ w : Workflow, fsFind s.fs metricsPath = some (.ok w) →
        metricsPath ∉ s.roPaths →
        metricsPath ∈ (_fix_permissions s).2.writes)) := by
  constructor
  · intro s h
    rcases h with h | ⟨⟨u, h⟩, g⟩
    · exact fixPermissionsLoop_bad_step _ _ _ h
    · exact fixPermissionsLoop_wfail_step _ _ _ _ h g
  · intro s h1
    unfold _fix_permissions
    rcases h1 with h1 | ⟨⟨u, h1⟩, g1⟩
    · rw [fixPermissionsLoop_none_step _ _ _ h1]
      exact ⟨fun e h2 => fixPermissionsLoop_last_reads _ _ _ h2,
             fun w h2 g2 => fixPermissionsLoop_last_writes _ _ _ h2 g2⟩
    · rw [fixPermissionsLoop_ok_step _ _ _ _ h1 g1]
      refine ⟨fun e h2 => ?_, fun w h2 g2 => ?_⟩
      · refine fixPermissionsLoop_last_reads _ _ e ?_
        rw [fsFind_fsWrite_ne _ _ (by decide)]
        exact h2
      · refine fixPermissionsLoop_last_writes _ _ w ?_ ?_
        · rw [fsFind_fsWrite_ne _ _ (by decide)]
          exact h2
        · exact g2

/-- A parsed empty workflow document, for the C10 witnesses. -/
def c10Doc : Workflow := { «on» := [], jobs := [] }

/-- Filesystem where the first permission-fix target is present but unparseable. -/
def c10BadSt : St := { initSt with fs := [(profileReadmePath, .bad)] }

/-- Filesystem where the first target parses but cannot be opened for writing. -/
def c10RoSt : St :=
  { initSt with
    fs := [(profileReadmePath, .ok c10Doc)],
    roPaths := [profileReadmePath] }

/-- Filesystem where only the metrics workflow exists, parses and is writable. -/
def c10OkSt : St := { initSt with fs := [(metricsPath, .ok c10Doc)] }

/-- C10 witness: `spec_c10` at a parse error on the first file, at a write error
on the first file, and at a run that reaches and rewrites the second file. -/
theorem spec_c10_witness :
    (fsFind c10BadSt.fs profileReadmePath = some .bad ∧
      _fix_permissions c10BadSt =
        (false, { c10BadSt with reads := c10BadSt.reads ++ [profileReadmePath] })) ∧
    (fsFind c10RoSt.fs profileReadmePath = some (.ok c10Doc) ∧
      profileReadmePath ∈ c10RoSt.roPaths ∧
      _fix_permissions c10RoSt =
        (false, { c10RoSt with reads := c10RoSt.reads ++ [profileReadmePath] })) ∧
    (fsFind c10OkSt.fs profileReadmePath = none ∧
      fsFind c10OkSt.fs metricsPath = some (.ok c10Doc) ∧
      metricsPath ∉ c10OkSt.roPaths ∧
      metricsPath ∈ (_fix_permissions c10OkSt).2.reads ∧
      metricsPath ∈ (_fix_permissions c10OkSt).2.writes) :=
  ⟨⟨rfl, spec_c10.1 c10BadSt (Or.inl rfl)⟩,
   ⟨rfl, by decide, spec_c10.1 c10RoSt (Or.inr ⟨⟨c10Doc, rfl⟩, by decide⟩)⟩,
   ⟨rfl, rfl, by decide,
     (spec_c10.2 c10OkSt (Or.inl rfl)).1 (.ok c10Doc) rfl,
     (spec_c10.2 c10OkSt (Or.inl rfl)).2 c10Doc rfl (by decide)⟩⟩

/-- C2 counterexample: with the credential missing, the `ci_failure_resolver`
entry point issues no network call but the process finishes with exit status 0,
not the non-zero status the claim requires of every entry point (its `main` only
logs the error and returns). -/
theorem spec_c2_counterexample :
    (ci_resolver_main none emptyEnv initSt).exitCode = 0 ∧
    (ci_resolver_main none emptyEnv initSt).st.netCalls = 0 :=
  ⟨rfl, rfl⟩

/-- C2 (amended): with the credential missing from both flag and environment,
the `run_resolver` entry point exits with status 1 before any network call (its
state, including the request counter, is untouched); the `ci_failure_resolver`
entry point also returns before any network call, but the process exits with
status 0. -/
theorem spec_c2_amended (tokenFlag envToken : Option Str) (dryRun : Bool)
    (env : CycleEnv) (s : St)
    (h : pyTruthy tokenFlag = false) (g : pyTruthy envToken = false) :
    (run_resolver_main tokenFlag envToken dryRun env s).exitCode = 1 ∧
    (run_resolver_main tokenFlag envToken dryRun env s).st = s ∧
    (ci_resolver_main envToken env s).exitCode = 0 ∧
    (ci_resolver_main envToken env s).st = s := by
  simp [run_resolver_main, ci_resolver_main, h, g]

/-- C2 witness: no flag, empty environment token (Python treats the empty string
as a missing credential). -/
theorem spec_c2_amended_witness :
    pyTruthy none = false ∧ pyTruthy (some []) = false ∧
    ((run_resolver_main none (some []) false emptyEnv initSt).exitCode = 1 ∧
      (run_resolver_main none (some []) false emptyEnv initSt).st = initSt ∧
      (ci_resolver_main (some []) emptyEnv initSt).exitCode = 0 ∧
      (ci_resolver_main (some []) emptyEnv initSt).st = initSt) :=
  ⟨rfl, rfl, spec_c2_amended none (some []) false emptyEnv initSt rfl rfl⟩
